import Mathlib

/-!
Verification of the Tauron explainability-to-alert pipeline.

Shallow embedding of the pure core of `backend/xai_bridge.py`,
`backend/llm_engine.py` and the explanation path of `backend/main.py` /
`backend/graph_utils.py`.

Modelling conventions:
- Python floats are modelled as exact rationals (`ℚ`).  `round(x, 4)` and the
  `%`-format codes are modelled by ideal round-half-to-even on rationals.
- Python dicts are modelled as association lists `List (String × JVal)`;
  subscription (`d[k]`) raising `KeyError` and other Python exceptions are
  modelled with `Except PyError`.
- The outbound Ollama HTTP call of `generate_alert` is modelled by a
  `BackendOutcome` parameter enumerating the outcome classes the `try` block
  distinguishes; likewise the stubbed graph-inference collaborators
  (`run_inference`, `get_gnn_explainer_output`) are passed as explicit inputs
  to `explain_cow`, following their documented return shapes.
-/

set_option maxRecDepth 4000

/-- Python exception classes that occur in the embedded code paths. -/
inductive PyError where
  | keyError (k : String)
  | indexError
  | typeError
  | attributeError
  | valueError (msg : String)
deriving DecidableEq, Repr

/-- A Python/JSON value as used by the pipeline dicts. -/
inductive JVal where
  | jint (i : Int)
  | jrat (q : ℚ)
  | jstr (s : String)
  | jobj (fields : List (String × JVal))

instance {ε α : Type} [DecidableEq ε] [DecidableEq α] : DecidableEq (Except ε α) := fun a b =>
  match a, b with
  | .ok x, .ok y =>
    if h : x = y then isTrue (congrArg Except.ok h)
    else isFalse (fun hh => h (Except.ok.inj hh))
  | .error x, .error y =>
    if h : x = y then isTrue (congrArg Except.error h)
    else isFalse (fun hh => h (Except.error.inj hh))
  | .ok _, .error _ => isFalse (fun hh => Except.noConfusion hh)
  | .error _, .ok _ => isFalse (fun hh => Except.noConfusion hh)

/-- Dict lookup, `d.get(k)`-style: `some` value of the key, or `none`. -/
def getV (d : List (String × JVal)) (k : String) : Option JVal :=
  match d.find? (fun p => p.1 == k) with
  | some p => some p.2
  | none => none

/-- Dict subscription `d[k]`: raises `KeyError` when the key is absent. -/
def getItem (d : List (String × JVal)) (k : String) : Except PyError JVal :=
  match getV d k with
  | some v => .ok v
  | none => .error (.keyError k)

/-- Numeric coercion as required by Python `%`-format codes: non-numbers raise. -/
def asNum : JVal → Except PyError ℚ
  | .jint i => .ok (mkRat i 1)
  | .jrat q => .ok q
  | _ => .error .typeError

/-- String methods (`.replace`) on a non-string raise `AttributeError`. -/
def asStr : JVal → Except PyError String
  | .jstr s => .ok s
  | _ => .error .attributeError

/-- Subscripting a non-dict value with a string key raises `TypeError`. -/
def asObj : JVal → Except PyError (List (String × JVal))
  | .jobj f => .ok f
  | _ => .error .typeError

/-- Python `str()` rendering as used inside f-strings.  Rationals and dicts
never reach a rendering position in any verified property, so their exact
Python `repr` is approximated. -/
def pyStr : JVal → String
  | .jint i => toString i
  | .jrat q => toString q
  | .jstr s => s
  | .jobj _ => "dict"

/-- Python truthiness-flavoured comparison `v != 0.0`: numbers compare by
value, any non-number is unequal to `0.0`. -/
def jvalNeZero : JVal → Bool
  | .jint i => i != 0
  | .jrat q => q.num != 0
  | .jstr _ => true
  | .jobj _ => true

/-- Models the single-character replacement `s.replace("_", " ")`. -/
def humanize (s : String) : String :=
  String.mk (s.data.map (fun c => if c = '_' then ' ' else c))

/-- Models Python `str.strip()` (leading/trailing whitespace removal). -/
def pyStrip (s : String) : String :=
  String.mk (((s.data.dropWhile Char.isWhitespace).reverse.dropWhile Char.isWhitespace).reverse)

/-- Round-half-to-even of the fraction `t / d` (for `d > 0`), the rounding
Python's `round` and `%`-formatting use. -/
def rheDiv (t : ℤ) (d : ℤ) : ℤ :=
  let f := Int.ediv t d
  let r := Int.emod t d
  if 2 * r < d then f
  else if d < 2 * r then f + 1
  else if Int.emod f 2 = 0 then f else f + 1

/-- Models Python `round(q, 4)` (idealised to exact rationals). -/
def round4 (q : ℚ) : ℚ := mkRat (rheDiv (q.num * 10000) (q.den : Int)) 10000

/-- Models the Python format `f"{q:.0%}"`. -/
def formatPct (q : ℚ) : String :=
  toString (rheDiv (q.num * 100) (q.den : Int)) ++ "%"

/-- Models the Python format `f"{q:+.0%}"`. -/
def formatSignedPct (q : ℚ) : String :=
  let n := rheDiv (q.num * 100) (q.den : Int)
  (if 0 ≤ n then "+" ++ toString n else toString n) ++ "%"

/-- Python list subscription `l[i]` with negative-index wrap-around;
`none` models `IndexError`. -/
def pyListGet (l : List α) (i : Int) : Option α :=
  if 0 ≤ i then l.get? i.toNat
  else if 0 ≤ i + (l.length : Int) then l.get? (i + (l.length : Int)).toNat
  else none

/-- Models Python `max(l, key=lambda x: x[1])`: the first element attaining
the maximal second component (Python's `max` only replaces the current
maximum on a strictly greater key). -/
def pyMaxBySnd {α : Type} : List (α × ℚ) → Option (α × ℚ)
  | [] => none
  | x :: xs =>
    match pyMaxBySnd xs with
    | none => some x
    | some m => some (if x.2 < m.2 then m else x)

/-- The filtered comprehension of `extract_top_edge`:
`[(i, m) for i, (e, m) in enumerate(zip(edge_index, edge_mask))
  if e[0] == target_idx or e[1] == target_idx]`,
with `start` the running `enumerate` counter. -/
def incidentPairs (pairs : List ((Int × Int) × ℚ)) (tIdx : Int) (start : Nat) :
    List (Nat × ℚ) :=
  match pairs with
  | [] => []
  | (e, m) :: rest =>
    if e.1 = tIdx ∨ e.2 = tIdx then (start, m) :: incidentPairs rest tIdx (start + 1)
    else incidentPairs rest tIdx (start + 1)

/-- Models `enumerate`, used to model `max(range(len(mask)), key=...)`. -/
def enumFrom (start : Nat) : List ℚ → List (Nat × ℚ)
  | [] => []
  | x :: xs => (start, x) :: enumFrom (start + 1) xs

/-- First index of the maximal element (Python argmax by first occurrence);
only applied to non-empty lists, the `0` default is unreachable there. -/
def pyArgmax (l : List ℚ) : Nat :=
  match pyMaxBySnd (enumFrom 0 l) with
  | some p => p.1
  | none => 0

/-- The list `FEATURE_NAMES` of `backend/xai_bridge.py`, in training column order. -/
def FEATURE_NAMES : List String :=
  ["milk_yield", "milk_yield_drop", "vet_event_flag", "pen_assignment",
   "feeding_station", "rumination_minutes", "activity_index",
   "brd_cough_frequency", "lameness_score", "proximity_to_alert"]

/-- The dict returned by `extract_top_edge`:
`{"from": ..., "to": ..., "weight": ...}`. -/
structure TopEdge where
  «from» : Int
  «to» : Int
  weight : ℚ
deriving DecidableEq, Repr

/-- Models `xai_bridge.extract_top_edge`.  `edge_index` entries are node-index pairs;
`cow_ids` maps node index to cow ID; a `.error` carries the Python exception
(`IndexError` when the neighbour index falls outside `cow_ids`). -/
def extract_top_edge (edge_index : List (Int × Int)) (edge_mask : List ℚ)
    (cow_ids : List Int) (target_cow_id : Int) : Except PyError TopEdge :=
  if target_cow_id ∈ cow_ids then
    let target_idx : Nat := cow_ids.indexOf target_cow_id
    let incident := incidentPairs (edge_index.zip edge_mask) (target_idx : Int) 0
    match pyMaxBySnd incident with
    | none => .ok ⟨target_cow_id, target_cow_id, 0⟩
    | some best =>
      let e := edge_index.getD best.1 (0, 0)
      let neighbor_idx : Int := if e.1 = (target_idx : Int) then e.2 else e.1
      match pyListGet cow_ids neighbor_idx with
      | none => .error .indexError
      | some neighbor_cow_id => .ok ⟨target_cow_id, neighbor_cow_id, round4 best.2⟩
  else .ok ⟨target_cow_id, target_cow_id, 0⟩

/-- Models `xai_bridge.extract_top_feature`. -/
def extract_top_feature (feature_mask : List ℚ) (feature_delta : Option (List ℚ)) :
    String × ℚ :=
  if feature_mask.length = 0 ∨ FEATURE_NAMES.length < feature_mask.length then
    (FEATURE_NAMES.getD 0 "", 0)
  else
    let top_idx := pyArgmax feature_mask
    let top_name := FEATURE_NAMES.getD top_idx ""
    let delta : ℚ :=
      match feature_delta with
      | some ds => if ds.length ≠ 0 ∧ top_idx < ds.length then ds.getD top_idx 0 else 0
      | none => 0
    (top_name, round4 delta)

/-- The `top_edge` sub-dict as placed into the structured XAI dict. -/
def topEdgeJ (t : TopEdge) : JVal :=
  .jobj [("from", .jint t.«from»), ("to", .jint t.«to»), ("weight", .jrat t.weight)]

/-- Documented return shape of the stubbed
`graph_utils.get_gnn_explainer_output`; `feature_delta` is read with `.get`
by `build_xai_json`, hence optional. -/
structure ExplainerOutput where
  cow_id : Int
  edge_mask : List ℚ
  edge_index : List (Int × Int)
  feature_mask : List ℚ
  feature_names : List String
  feature_delta : Option (List ℚ)

/-- Models `xai_bridge.build_xai_json`: the structured intermediate dict,
without `alert_text`. -/
def build_xai_json (cow_id : Int) (risk_score : ℚ)
    (explainer_output : ExplainerOutput) (cow_ids : List Int) :
    Except PyError (List (String × JVal)) :=
  match extract_top_edge explainer_output.edge_index explainer_output.edge_mask
      cow_ids cow_id with
  | .error e => .error e
  | .ok top_edge =>
    let tf := extract_top_feature explainer_output.feature_mask
      explainer_output.feature_delta
    .ok [("cow_id", .jint cow_id),
         ("risk_score", .jrat (round4 risk_score)),
         ("top_edge", topEdgeJ top_edge),
         ("top_feature", .jstr tf.1),
         ("feature_delta", .jrat tf.2)]

/-- Outcome classes of the Ollama call inside `generate_alert`'s `try` block:
a successful response carrying the generated text, or one of the failure
classes the two `except` arms distinguish (connection error and timeout in the
first arm; HTTP status errors, malformed JSON bodies and anything else in the
catch-all second arm). -/
inductive BackendOutcome where
  | success (text : String)
  | connectError
  | timeoutError
  | httpStatusError
  | malformedResponse
  | otherError
deriving DecidableEq, Repr

/-- Whether the outcome takes one of the two `except` arms. -/
def BackendOutcome.isFailure : BackendOutcome → Bool
  | .success _ => false
  | _ => true

/-- Models `llm_engine._build_user_prompt`, with Python's evaluation order: the key
subscriptions and `.replace` of the assignment block first, then `delta_str`,
then the two `%`-formats inside the returned f-string. -/
def build_user_prompt (xai_json : List (String × JVal)) : Except PyError String :=
  match getItem xai_json "cow_id" with
  | .error e => .error e
  | .ok cow =>
  match getItem xai_json "risk_score" with
  | .error e => .error e
  | .ok risk =>
  match getItem xai_json "top_feature" with
  | .error e => .error e
  | .ok tfv =>
  match asStr tfv with
  | .error e => .error e
  | .ok tf =>
  match getItem xai_json "feature_delta" with
  | .error e => .error e
  | .ok delta =>
  match getItem xai_json "top_edge" with
  | .error e => .error e
  | .ok tev =>
  match asObj tev with
  | .error e => .error e
  | .ok te =>
  match getItem te "from" with
  | .error e => .error e
  | .ok edge_from =>
  match getItem te "to" with
  | .error e => .error e
  | .ok edge_to =>
  match getItem te "weight" with
  | .error e => .error e
  | .ok edge_weight =>
  match (if jvalNeZero delta then Except.map formatSignedPct (asNum delta)
         else .ok "baseline") with
  | .error e => .error e
  | .ok delta_str =>
  match asNum risk with
  | .error e => .error e
  | .ok riskq =>
  match asNum edge_weight with
  | .error e => .error e
  | .ok ewq =>
    .ok ("Cow ID: #" ++ pyStr cow ++ "\n"
      ++ "Risk score: " ++ formatPct riskq ++ "\n"
      ++ "Top risk factor: " ++ humanize tf
      ++ " (change from baseline: " ++ delta_str ++ ")\n"
      ++ "Highest-risk contact: #" ++ pyStr edge_from
      ++ " shared space with #" ++ pyStr edge_to
      ++ " (connection strength: " ++ formatPct ewq ++ ")\n"
      ++ "Generate a one-sentence farmer alert.")

/-- Models `llm_engine._fallback_alert`: the deterministic template used when the
backend call fails. -/
def fallback_alert (xai_json : List (String × JVal)) : Except PyError String :=
  match getItem xai_json "cow_id" with
  | .error e => .error e
  | .ok cow =>
  match getItem xai_json "top_feature" with
  | .error e => .error e
  | .ok tfv =>
  match asStr tfv with
  | .error e => .error e
  | .ok tf =>
  match getItem xai_json "top_edge" with
  | .error e => .error e
  | .ok tev =>
  match asObj tev with
  | .error e => .error e
  | .ok te =>
  match getItem te "to" with
  | .error e => .error e
  | .ok contact =>
    .ok ("Check #" ++ pyStr cow ++ ": " ++ humanize tf
      ++ " detected, shared space with #" ++ pyStr contact
      ++ ". Inspect immediately.")

/-- Models `llm_engine.generate_alert`: builds the prompt (outside the `try` block,
so its exceptions propagate), then either returns the stripped backend
response or, on any failure class, the template fallback. -/
def generate_alert (xai_json : List (String × JVal)) (backend : BackendOutcome) :
    Except PyError String :=
  match build_user_prompt xai_json with
  | .error e => .error e
  | .ok _prompt =>
    match backend with
    | .success text => .ok (pyStrip text)
    | _ => fallback_alert xai_json

/-- One entry of `run_inference`'s documented `cows` list. -/
structure CowOut where
  id : Int
  risk_score : ℚ
  status : String
  top_feature : Option String

/-- Documented return shape of the stubbed `graph_utils.run_inference`. -/
structure InferenceResult where
  cows : List CowOut
  adjacency : List (List Int)

/-- Models `{**xai_json, "alert_text": v}`: replace an existing key in place,
otherwise append. -/
def pyDictSet (d : List (String × JVal)) (k : String) (v : JVal) :
    List (String × JVal) :=
  if (getV d k).isSome then d.map (fun p => if p.1 == k then (k, v) else p)
  else d ++ [(k, v)]

/-- Models `xai_bridge.explain_cow`, the real (non-mock) path, with the stubbed
collaborators (`run_inference` result, `get_gnn_explainer_output` result) and
the backend outcome passed as inputs. -/
def explain_cow (inference_result : InferenceResult)
    (explainer_output : ExplainerOutput) (backend : BackendOutcome)
    (cow_id : Int) : Except PyError (List (String × JVal)) :=
  match inference_result.cows.find? (fun c => c.id == cow_id) with
  | none => .error (.valueError ("Cow " ++ toString cow_id
      ++ " not found in inference result"))
  | some cow_data =>
    let cow_ids := inference_result.cows.map (fun c => c.id)
    match build_xai_json cow_id cow_data.risk_score explainer_output cow_ids with
    | .error e => .error e
    | .ok xai_json =>
      match generate_alert xai_json backend with
      | .error e => .error e
      | .ok alert_text => .ok (pyDictSet xai_json "alert_text" (.jstr alert_text))

/-- Result of the `/explain/{cow_id}` route: a 200 body, the 404 produced from
a caught `ValueError`, or an exception `main.get_explain` does not convert
(FastAPI would surface it as a 500). -/
inductive HttpResponse where
  | ok (body : List (String × JVal))
  | notFound (detail : String)
  | uncaught (e : PyError)

/-- Models `main.get_explain`, real (non-mock) path: calls `explain_cow` and converts
only `ValueError` to a 404. -/
def get_explain (inference_result : InferenceResult)
    (explainer_output : ExplainerOutput) (backend : BackendOutcome)
    (cow_id : Int) : HttpResponse :=
  match explain_cow inference_result explainer_output backend cow_id with
  | .ok body => .ok body
  | .error (.valueError msg) => .notFound msg
  | .error e => .uncaught e

/-- Modelled from the spec: the risk classifier (score to status).  The
implementing function `graph_utils.run_inference` is a stub in the repository
(its body raises `NotImplementedError`); the thresholds are fixed by its
docstring and §4.3 of the spec: score > 0.70 is "alert", 0.40 ≤ score ≤ 0.70
is "watch", score < 0.40 is "ok". -/
def classify_status (score : ℚ) : String :=
  if mkRat 70 100 < score then "alert"
  else if mkRat 40 100 ≤ score then "watch"
  else "ok"

/-- Severity order of the three statuses, for stating monotonicity. -/
def statusRank (s : String) : Nat :=
  if s = "ok" then 0 else if s = "watch" then 1 else 2

/-- A well-formed Structured Explanation dict used as a concrete witness
input (the scenario of the hand-crafted mock entry for cow 47). -/
def demo_xai : List (String × JVal) :=
  [("cow_id", .jint 47), ("risk_score", .jrat (mkRat 85 100)),
   ("top_edge", .jobj [("from", .jint 47), ("to", .jint 31), ("weight", .jrat (mkRat 91 100))]),
   ("top_feature", .jstr "milk_yield_drop"), ("feature_delta", .jrat (mkRat (-18) 100))]

theorem string_data_append (s t : String) : (s ++ t).data = s.data ++ t.data := by
  cases s; cases t; rfl

theorem pyMaxBySnd_none {α : Type} {l : List (α × ℚ)} : pyMaxBySnd l = none ↔ l = [] := by
  cases l with
  | nil => simp [pyMaxBySnd]
  | cons a as =>
    simp only [pyMaxBySnd]
    cases pyMaxBySnd as <;> simp

theorem pyMaxBySnd_spec {α : Type} {l : List (α × ℚ)} {x : α × ℚ}
    (h : pyMaxBySnd l = some x) :
    ∃ l₁ l₂, l = l₁ ++ x :: l₂ ∧ (∀ y ∈ l₁, y.2 < x.2) ∧ ∀ y ∈ l, y.2 ≤ x.2 := by
  induction l generalizing x with
  | nil => simp [pyMaxBySnd] at h
  | cons a as ih =>
    simp only [pyMaxBySnd] at h
    cases hm : pyMaxBySnd as with
    | none =>
      rw [hm] at h
      obtain rfl : a = x := by simpa using h
      obtain rfl : as = [] := pyMaxBySnd_none.mp hm
      exact ⟨[], [], rfl, by simp, by simp⟩
    | some m =>
      rw [hm] at h
      obtain ⟨l₁, l₂, hsplit, hpre, hmax⟩ := ih hm
      by_cases hc : a.2 < m.2
      · obtain rfl : m = x := by simpa [hc] using h
        refine ⟨a :: l₁, l₂, by simp [hsplit], ?_, ?_⟩
        · intro y hy
          rcases List.mem_cons.mp hy with rfl | hy
          · exact hc
          · exact hpre y hy
        · intro y hy
          rcases List.mem_cons.mp hy with rfl | hy
          · exact le_of_lt hc
          · exact hmax y hy
      · obtain rfl : a = x := by simpa [hc] using h
        refine ⟨[], as, rfl, by simp, ?_⟩
        intro y hy
        rcases List.mem_cons.mp hy with rfl | hy
        · exact le_refl _
        · exact le_trans (hmax y hy) (not_lt.mp hc)

theorem incidentPairs_mem {pairs : List ((Int × Int) × ℚ)} {tIdx : Int}
    {start i : Nat} {m : ℚ} :
    (i, m) ∈ incidentPairs pairs tIdx start ↔
      ∃ j e, pairs.get? j = some (e, m) ∧ (e.1 = tIdx ∨ e.2 = tIdx) ∧ i = start + j := by
  induction pairs generalizing start with
  | nil => simp [incidentPairs]
  | cons p rest ih =>
    obtain ⟨e, w⟩ := p
    simp only [incidentPairs]
    by_cases hc : e.1 = tIdx ∨ e.2 = tIdx
    · rw [if_pos hc]
      constructor
      · intro hmem
        rcases List.mem_cons.mp hmem with heq | hmem
        · obtain ⟨rfl, rfl⟩ : i = start ∧ m = w := by
            constructor <;> [exact congrArg Prod.fst heq; exact congrArg Prod.snd heq]
          exact ⟨0, e, rfl, hc, by simp⟩
        · obtain ⟨j, e', hget, hinc, hi⟩ := ih.mp hmem
          exact ⟨j + 1, e', hget, hinc, by omega⟩
      · rintro ⟨j, e', hget, hinc, rfl⟩
        cases j with
        | zero =>
          obtain ⟨rfl, rfl⟩ : e' = e ∧ m = w := by
            have h0 : (e, w) = (e', m) := by simpa using hget
            exact ⟨(congrArg Prod.fst h0).symm, (congrArg Prod.snd h0).symm⟩
          simp
        | succ j' =>
          refine List.mem_cons.mpr (Or.inr (ih.mpr ⟨j', e', hget, hinc, by omega⟩))
    · rw [if_neg hc]
      constructor
      · intro hmem
        obtain ⟨j, e', hget, hinc, hi⟩ := ih.mp hmem
        exact ⟨j + 1, e', hget, hinc, by omega⟩
      · rintro ⟨j, e', hget, hinc, rfl⟩
        cases j with
        | zero =>
          obtain ⟨rfl, rfl⟩ : e' = e ∧ m = w := by
            have h0 : (e, w) = (e', m) := by simpa using hget
            exact ⟨(congrArg Prod.fst h0).symm, (congrArg Prod.snd h0).symm⟩
          exact absurd hinc hc
        | succ j' =>
          exact ih.mpr ⟨j', e', hget, hinc, by omega⟩

theorem incidentPairs_start_le {pairs : List ((Int × Int) × ℚ)} {tIdx : Int}
    {start : Nat} : ∀ p ∈ incidentPairs pairs tIdx start, start ≤ p.1 := by
  induction pairs generalizing start with
  | nil => simp [incidentPairs]
  | cons q rest ih =>
    obtain ⟨e, w⟩ := q
    simp only [incidentPairs]
    by_cases hc : e.1 = tIdx ∨ e.2 = tIdx
    · rw [if_pos hc]
      intro p hp
      rcases List.mem_cons.mp hp with rfl | hp
      · exact le_refl _
      · exact le_trans (Nat.le_succ _) (ih p hp)
    · rw [if_neg hc]
      intro p hp
      exact le_trans (Nat.le_succ _) (ih p hp)

theorem incidentPairs_pairwise {pairs : List ((Int × Int) × ℚ)} {tIdx : Int}
    {start : Nat} :
    (incidentPairs pairs tIdx start).Pairwise (fun a b : Nat × ℚ => a.1 < b.1) := by
  induction pairs generalizing start with
  | nil => simp [incidentPairs]
  | cons q rest ih =>
    obtain ⟨e, w⟩ := q
    simp only [incidentPairs]
    by_cases hc : e.1 = tIdx ∨ e.2 = tIdx
    · rw [if_pos hc]
      refine List.Pairwise.cons ?_ ih
      intro p hp
      exact lt_of_lt_of_le (Nat.lt_succ_self _) (incidentPairs_start_le p hp)
    · rw [if_neg hc]
      exact ih

theorem enumFrom_mem {l : List ℚ} {start i : Nat} {m : ℚ} :
    (i, m) ∈ enumFrom start l ↔ ∃ j, l.get? j = some m ∧ i = start + j := by
  induction l generalizing start with
  | nil => simp [enumFrom]
  | cons a as ih =>
    simp only [enumFrom]
    constructor
    · intro hmem
      rcases List.mem_cons.mp hmem with heq | hmem
      · obtain ⟨rfl, rfl⟩ : i = start ∧ m = a := by
          constructor <;> [exact congrArg Prod.fst heq; exact congrArg Prod.snd heq]
        exact ⟨0, rfl, by simp⟩
      · obtain ⟨j, hget, hi⟩ := ih.mp hmem
        exact ⟨j + 1, hget, by omega⟩
    · rintro ⟨j, hget, rfl⟩
      cases j with
      | zero =>
        obtain rfl : m = a := by
          have h0 : a = m := by simpa using hget
          exact h0.symm
        simp
      | succ j' =>
        exact List.mem_cons.mpr (Or.inr (ih.mpr ⟨j', hget, by omega⟩))

theorem enumFrom_start_le {l : List ℚ} {start : Nat} :
    ∀ p ∈ enumFrom start l, start ≤ p.1 := by
  induction l generalizing start with
  | nil => simp [enumFrom]
  | cons a as ih =>
    simp only [enumFrom]
    intro p hp
    rcases List.mem_cons.mp hp with rfl | hp
    · exact le_refl _
    · exact le_trans (Nat.le_succ _) (ih p hp)

theorem enumFrom_pairwise {l : List ℚ} {start : Nat} :
    (enumFrom start l).Pairwise (fun a b : Nat × ℚ => a.1 < b.1) := by
  induction l generalizing start with
  | nil => simp [enumFrom]
  | cons a as ih =>
    simp only [enumFrom]
    refine List.Pairwise.cons ?_ ih
    intro p hp
    exact lt_of_lt_of_le (Nat.lt_succ_self _) (enumFrom_start_le p hp)

theorem enumFrom_eq_nil {l : List ℚ} {start : Nat} :
    enumFrom start l = [] ↔ l = [] := by
  cases l <;> simp [enumFrom]

/-- The node index `cow_ids.index(target_cow_id)` that `extract_top_edge`
resolves the target ID to (first occurrence), as an integer for comparison
with edge endpoints. -/
def target_idx (cow_ids : List Int) (target_cow_id : Int) : Int :=
  (cow_ids.indexOf target_cow_id : Int)

theorem round4_zero : round4 0 = 0 := by decide

theorem pyListGet_of_nonneg {α : Type} {l : List α} {i : Int}
    (h0 : 0 ≤ i) : pyListGet l i = l.get? i.toNat := by
  unfold pyListGet
  rw [if_pos h0]

/-- Claim C2: the risk classifier maps every score strictly above 0.70 to
"alert", every score in the closed interval from 0.40 to 0.70 to "watch" (in
particular both boundary values map to "watch"), and every score strictly
below 0.40 to "ok"; the classifier is monotone, and the three buckets are
mutually exclusive and exhaustive (so they partition the unit interval with
no overlap or gap). -/
theorem classify_status_spec :
    classify_status (mkRat 70 100) = "watch" ∧
    classify_status (mkRat 40 100) = "watch" ∧
    (∀ q : ℚ,
      (classify_status q = "alert" ↔ mkRat 70 100 < q) ∧
      (classify_status q = "watch" ↔ mkRat 40 100 ≤ q ∧ q ≤ mkRat 70 100) ∧
      (classify_status q = "ok" ↔ q < mkRat 40 100)) ∧
    (∀ s t : ℚ, s ≤ t →
      statusRank (classify_status s) ≤ statusRank (classify_status t)) := by
  have hq : ∀ q : ℚ,
      (classify_status q = "alert" ↔ mkRat 70 100 < q) ∧
      (classify_status q = "watch" ↔ mkRat 40 100 ≤ q ∧ q ≤ mkRat 70 100) ∧
      (classify_status q = "ok" ↔ q < mkRat 40 100) := by
    intro q
    have hb : mkRat 40 100 < mkRat 70 100 := by decide
    unfold classify_status
    split_ifs with h1 h2
    · exact ⟨iff_of_true rfl h1,
        iff_of_false (by decide) (fun hh => absurd h1 (not_lt.mpr hh.2)),
        iff_of_false (by decide) (fun hh => absurd (lt_trans hh hb) (lt_asymm h1))⟩
    · exact ⟨iff_of_false (by decide) h1,
        iff_of_true rfl ⟨h2, not_lt.mp h1⟩,
        iff_of_false (by decide) (not_lt.mpr h2)⟩
    · exact ⟨iff_of_false (by decide) h1,
        iff_of_false (by decide) (fun hh => h2 hh.1),
        iff_of_true rfl (not_le.mp h2)⟩
  refine ⟨by decide, by decide, hq, ?_⟩
  intro s t hst
  by_cases ha : mkRat 70 100 < s
  · rw [(hq s).1.mpr ha, (hq t).1.mpr (lt_of_lt_of_le ha hst)]
  · by_cases hb : mkRat 40 100 ≤ s
    · rw [(hq s).2.1.mpr ⟨hb, not_lt.mp ha⟩]
      by_cases hc : mkRat 70 100 < t
      · rw [(hq t).1.mpr hc]
        decide
      · rw [(hq t).2.1.mpr ⟨le_trans hb hst, not_lt.mp hc⟩]
    · rw [(hq s).2.2.mpr (not_le.mp hb), show statusRank "ok" = 0 from rfl]
      exact Nat.zero_le _

/-- Witness for C2 at concrete scores 0.20 and 0.90. -/
theorem classify_status_spec_witness :
    statusRank (classify_status (mkRat 20 100)) ≤ statusRank (classify_status (mkRat 90 100)) :=
  classify_status_spec.2.2.2 (mkRat 20 100) (mkRat 90 100) (by decide)

/-- Claim C4: for a target ID absent from the mapping, and likewise for a
target ID present in the mapping but with no incident edge, `extract_top_edge`
returns the self-loop sentinel with weight 0.0 and raises no exception. -/
theorem extract_top_edge_sentinel (edge_index : List (Int × Int)) (edge_mask : List ℚ)
    (cow_ids : List Int) (target_cow_id : Int)
    (h : target_cow_id ∉ cow_ids ∨
      (target_cow_id ∈ cow_ids ∧ ∀ e ∈ edge_index,
        ¬(e.1 = target_idx cow_ids target_cow_id ∨ e.2 = target_idx cow_ids target_cow_id))) :
    extract_top_edge edge_index edge_mask cow_ids target_cow_id =
      .ok ⟨target_cow_id, target_cow_id, 0⟩ := by
  rcases h with h | ⟨hmem, hnone⟩
  · unfold extract_top_edge
    rw [if_neg h]
  · have hnil : incidentPairs (edge_index.zip edge_mask)
        ((cow_ids.indexOf target_cow_id : Nat) : Int) 0 = [] := by
      apply List.eq_nil_iff_forall_not_mem.mpr
      rintro ⟨i, m⟩ hm
      obtain ⟨j, e, hget, hinc, _⟩ := incidentPairs_mem.mp hm
      have hget' := (List.get?_zip_eq_some _ _ _ _).mp hget
      exact hnone e (List.get?_mem hget'.1) hinc
    unfold extract_top_edge
    rw [if_pos hmem]
    simp only [hnil, pyMaxBySnd]

/-- Witness for C4: spec scenario 2, target `999` absent from the ID map. -/
theorem extract_top_edge_sentinel_witness :
    extract_top_edge [(0,1),(1,0),(1,2),(2,1),(2,3),(3,2)]
      [mkRat 3 10, mkRat 3 10, mkRat 9 10, mkRat 9 10, mkRat 5 10, mkRat 5 10]
      [10,20,30,40] 999 = .ok ⟨999, 999, 0⟩ :=
  extract_top_edge_sentinel _ _ _ _ (Or.inl (by decide))

/-- Claim C5: top-feature selection returns (first canonical name, 0.0) when
the mask is empty or strictly longer than the canonical name list; otherwise
it returns the name at the index of maximum importance (first index wins
ties) paired with the delta list's value at that index rounded to 4 decimal
places when a delta list is supplied and long enough, and 0.0 otherwise. -/
theorem extract_top_feature_spec (feature_mask : List ℚ) (feature_delta : Option (List ℚ)) :
    ((feature_mask.length = 0 ∨ FEATURE_NAMES.length < feature_mask.length) →
      extract_top_feature feature_mask feature_delta = ("milk_yield", 0)) ∧
    (feature_mask.length ≠ 0 → feature_mask.length ≤ FEATURE_NAMES.length →
      ∃ i, i < feature_mask.length ∧
        (∀ j, j < feature_mask.length → feature_mask.getD j 0 ≤ feature_mask.getD i 0) ∧
        (∀ j, j < i → feature_mask.getD j 0 < feature_mask.getD i 0) ∧
        extract_top_feature feature_mask feature_delta =
          (FEATURE_NAMES.getD i "",
            match feature_delta with
            | some ds => if i < ds.length then round4 (ds.getD i 0) else 0
            | none => 0)) := by
  constructor
  · intro h
    unfold extract_top_feature
    rw [if_pos h]
    decide
  · intro hne hle
    have hmasknil : feature_mask ≠ [] := fun hh => hne (by simp [hh])
    have hennil : enumFrom 0 feature_mask ≠ [] := by
      intro hh
      exact hmasknil (enumFrom_eq_nil.mp hh)
    cases hmax : pyMaxBySnd (enumFrom 0 feature_mask) with
    | none => exact absurd (pyMaxBySnd_none.mp hmax) hennil
    | some p =>
      obtain ⟨l₁, l₂, hsplit, hpre, hmaxall⟩ := pyMaxBySnd_spec hmax
      have hpmem : p ∈ enumFrom 0 feature_mask := by
        rw [hsplit]
        exact List.mem_append.mpr (Or.inr (List.mem_cons_self _ _))
      obtain ⟨jp, hjget, hjeq⟩ := enumFrom_mem.mp hpmem
      have hjp : jp = p.1 := by omega
      subst hjp
      have hplt : p.1 < feature_mask.length := (List.get?_eq_some.mp hjget).1
      have hpgetD : feature_mask.getD p.1 0 = p.2 := by
        rw [List.getD_eq_getD_get?, hjget]
        rfl
      refine ⟨p.1, hplt, ?_, ?_, ?_⟩
      · intro j hj
        obtain ⟨mj, hmj⟩ : ∃ mj, feature_mask.get? j = some mj :=
          ⟨_, List.get?_eq_get hj⟩
        have : (j, mj) ∈ enumFrom 0 feature_mask := enumFrom_mem.mpr ⟨j, hmj, by omega⟩
        have hle' := hmaxall (j, mj) this
        rw [List.getD_eq_getD_get?, hmj, hpgetD]
        exact hle'
      · intro j hj
        obtain ⟨mj, hmj⟩ : ∃ mj, feature_mask.get? j = some mj :=
          ⟨_, List.get?_eq_get (lt_trans hj hplt)⟩
        have hjmem : (j, mj) ∈ enumFrom 0 feature_mask := enumFrom_mem.mpr ⟨j, hmj, by omega⟩
        rw [hsplit] at hjmem
        rcases List.mem_append.mp hjmem with hin | hin
        · have := hpre (j, mj) hin
          rw [List.getD_eq_getD_get?, hmj, hpgetD]
          exact this
        · rcases List.mem_cons.mp hin with heq | hin
          · exact absurd (congrArg Prod.fst heq) (by simpa using Nat.ne_of_lt hj)
          · have hpw : (enumFrom 0 feature_mask).Pairwise (fun a b : Nat × ℚ => a.1 < b.1) :=
              enumFrom_pairwise
            rw [hsplit] at hpw
            have := ((List.pairwise_cons.mp (List.pairwise_append.mp hpw).2.1).1 (j, mj) hin)
            omega
      · unfold extract_top_feature
        rw [if_neg (by omega)]
        have hargmax : pyArgmax feature_mask = p.1 := by
          unfold pyArgmax
          rw [hmax]
        rw [hargmax]
        cases feature_delta with
        | none => simp [round4_zero]
        | some ds =>
          dsimp only
          by_cases hd : p.1 < ds.length
          · rw [if_pos ⟨by omega, hd⟩, if_pos hd]
          · rw [if_neg (by omega), if_neg hd]
            simp [round4_zero]

/-- Witness for C5: the empty mask yields the first canonical feature name
and delta 0.0 (spec testable property for masks of length 0). -/
theorem extract_top_feature_spec_witness :
    extract_top_feature [] none = ("milk_yield", 0) :=
  (extract_top_feature_spec [] none).1 (Or.inl rfl)

/-- Claim C1: with a parallel equal-length weight list, a target ID present in
the mapping, valid edge endpoints, and at least one incident edge,
`extract_top_edge` returns the dict with `from` the target ID, `to` the ID of
the non-target endpoint of the selected edge, and `weight` the selected
weight rounded to 4 decimal places, where the selected edge carries the
maximum weight among incident edges and, among equal maxima, is the first in
input order. -/
theorem extract_top_edge_max_incident (edge_index : List (Int × Int)) (edge_mask : List ℚ)
    (cow_ids : List Int) (target_cow_id : Int)
    (h_len : edge_index.length = edge_mask.length)
    (h_mem : target_cow_id ∈ cow_ids)
    (h_valid : ∀ e ∈ edge_index, 0 ≤ e.1 ∧ e.1 < (cow_ids.length : Int) ∧
      0 ≤ e.2 ∧ e.2 < (cow_ids.length : Int))
    (h_inc : ∃ j e, edge_index.get? j = some e ∧
      (e.1 = target_idx cow_ids target_cow_id ∨ e.2 = target_idx cow_ids target_cow_id)) :
    ∃ i e, edge_index.get? i = some e ∧
      (e.1 = target_idx cow_ids target_cow_id ∨ e.2 = target_idx cow_ids target_cow_id) ∧
      extract_top_edge edge_index edge_mask cow_ids target_cow_id =
        .ok ⟨target_cow_id,
          cow_ids.getD (if e.1 = target_idx cow_ids target_cow_id then e.2 else e.1).toNat 0,
          round4 (edge_mask.getD i 0)⟩ ∧
      (∀ j ej, edge_index.get? j = some ej →
        (ej.1 = target_idx cow_ids target_cow_id ∨ ej.2 = target_idx cow_ids target_cow_id) →
        edge_mask.getD j 0 ≤ edge_mask.getD i 0) ∧
      (∀ j ej, j < i → edge_index.get? j = some ej →
        (ej.1 = target_idx cow_ids target_cow_id ∨ ej.2 = target_idx cow_ids target_cow_id) →
        edge_mask.getD j 0 < edge_mask.getD i 0) := by
  simp only [target_idx] at h_inc ⊢
  obtain ⟨j0, e0, hj0, he0⟩ := h_inc
  have hj0lt : j0 < edge_index.length := (List.get?_eq_some.mp hj0).1
  obtain ⟨m0, hm0⟩ : ∃ m0, edge_mask.get? j0 = some m0 :=
    ⟨_, List.get?_eq_get (by omega)⟩
  have hzip0 : (edge_index.zip edge_mask).get? j0 = some (e0, m0) :=
    (List.get?_zip_eq_some _ _ _ _).mpr ⟨hj0, hm0⟩
  have hmem0 : (j0, m0) ∈ incidentPairs (edge_index.zip edge_mask)
      ((cow_ids.indexOf target_cow_id : Nat) : Int) 0 :=
    incidentPairs_mem.mpr ⟨j0, e0, hzip0, he0, by omega⟩
  cases hmax : pyMaxBySnd (incidentPairs (edge_index.zip edge_mask)
      ((cow_ids.indexOf target_cow_id : Nat) : Int) 0) with
  | none =>
    rw [pyMaxBySnd_none.mp hmax] at hmem0
    exact absurd hmem0 (List.not_mem_nil _)
  | some best =>
    obtain ⟨bi, bm⟩ := best
    obtain ⟨l₁, l₂, hsplit, hpre, hmaxall⟩ := pyMaxBySnd_spec hmax
    have hbmem : (bi, bm) ∈ incidentPairs (edge_index.zip edge_mask)
        ((cow_ids.indexOf target_cow_id : Nat) : Int) 0 := by
      rw [hsplit]
      exact List.mem_append.mpr (Or.inr (List.mem_cons_self _ _))
    obtain ⟨jb, eb, hgetb, hincb, hjb⟩ := incidentPairs_mem.mp hbmem
    have hjb' : jb = bi := by omega
    subst hjb'
    have hb1 : edge_index.get? jb = some eb := ((List.get?_zip_eq_some _ _ _ _).mp hgetb).1
    have hb2 : edge_mask.get? jb = some bm := ((List.get?_zip_eq_some _ _ _ _).mp hgetb).2
    have hbgetD : edge_mask.getD jb 0 = bm := by
      rw [List.getD_eq_getD_get?, hb2]
      rfl
    have hv := h_valid eb (List.get?_mem hb1)
    have hres : extract_top_edge edge_index edge_mask cow_ids target_cow_id =
        .ok ⟨target_cow_id,
          cow_ids.getD (if eb.1 = ((cow_ids.indexOf target_cow_id : Nat) : Int)
            then eb.2 else eb.1).toNat 0,
          round4 (edge_mask.getD jb 0)⟩ := by
      simp only [extract_top_edge]
      rw [if_pos h_mem, hmax]
      have hgetDe : edge_index.getD jb (0, 0) = eb := by
        rw [List.getD_eq_getD_get?, hb1]
        rfl
      dsimp only
      rw [hgetDe]
      have hnbr0 : 0 ≤ (if eb.1 = ((cow_ids.indexOf target_cow_id : Nat) : Int)
          then eb.2 else eb.1) := by
        split_ifs
        · exact hv.2.2.1
        · exact hv.1
      have hnbrlt : (if eb.1 = ((cow_ids.indexOf target_cow_id : Nat) : Int)
          then eb.2 else eb.1) < (cow_ids.length : Int) := by
        split_ifs
        · exact hv.2.2.2
        · exact hv.2.1
      have hlt : (if eb.1 = ((cow_ids.indexOf target_cow_id : Nat) : Int)
          then eb.2 else eb.1).toNat < cow_ids.length := by omega
      rw [pyListGet_of_nonneg hnbr0, List.get?_eq_get hlt, hbgetD]
      rw [List.getD_eq_get _ _ hlt]
  
    refine ⟨jb, eb, hb1, hincb, hres, ?_, ?_⟩
    · intro j ej hjget hjinc
      have hjlt : j < edge_index.length := (List.get?_eq_some.mp hjget).1
      obtain ⟨mj, hmj⟩ : ∃ mj, edge_mask.get? j = some mj :=
        ⟨_, List.get?_eq_get (by omega)⟩
      have : (j, mj) ∈ incidentPairs (edge_index.zip edge_mask)
          ((cow_ids.indexOf target_cow_id : Nat) : Int) 0 :=
        incidentPairs_mem.mpr ⟨j, ej, (List.get?_zip_eq_some _ _ _ _).mpr ⟨hjget, hmj⟩,
          hjinc, by omega⟩
      have hle := hmaxall (j, mj) this
      rw [List.getD_eq_getD_get?, hmj, hbgetD]
      exact hle
    · intro j ej hjlt' hjget hjinc
      have hjlt : j < edge_index.length := (List.get?_eq_some.mp hjget).1
      obtain ⟨mj, hmj⟩ : ∃ mj, edge_mask.get? j = some mj :=
        ⟨_, List.get?_eq_get (by omega)⟩
      have hjmem : (j, mj) ∈ incidentPairs (edge_index.zip edge_mask)
          ((cow_ids.indexOf target_cow_id : Nat) : Int) 0 :=
        incidentPairs_mem.mpr ⟨j, ej, (List.get?_zip_eq_some _ _ _ _).mpr ⟨hjget, hmj⟩,
          hjinc, by omega⟩
      rw [hsplit] at hjmem
      rcases List.mem_append.mp hjmem with hin | hin
      · have := hpre (j, mj) hin
        rw [List.getD_eq_getD_get?, hmj, hbgetD]
        exact this
      · rcases List.mem_cons.mp hin with heq | hin
        · exact absurd (congrArg Prod.fst heq) (by simpa using Nat.ne_of_lt hjlt')
        · have hpw : (incidentPairs (edge_index.zip edge_mask)
              ((cow_ids.indexOf target_cow_id : Nat) : Int) 0).Pairwise
              (fun a b : Nat × ℚ => a.1 < b.1) := incidentPairs_pairwise
          rw [hsplit] at hpw
          have := ((List.pairwise_cons.mp (List.pairwise_append.mp hpw).2.1).1 (j, mj) hin)
          omega

/-- Witness for C1: spec scenario 1 (target 20; incident weights 0.3 and 0.9;
the 0.9 edge at input position 2 is selected, neighbour ID 30). -/
theorem extract_top_edge_max_incident_witness :
    extract_top_edge [(0,1),(1,0),(1,2),(2,1),(2,3),(3,2)]
      [mkRat 3 10, mkRat 3 10, mkRat 9 10, mkRat 9 10, mkRat 5 10, mkRat 5 10]
      [10,20,30,40] 20 = .ok ⟨20, 30, mkRat 9 10⟩ := by
  obtain ⟨i, e, hg, hi, hres, hmax, hfirst⟩ :=
    extract_top_edge_max_incident [(0,1),(1,0),(1,2),(2,1),(2,3),(3,2)]
      [mkRat 3 10, mkRat 3 10, mkRat 9 10, mkRat 9 10, mkRat 5 10, mkRat 5 10]
      [10,20,30,40] 20 (by decide) (by decide) (by decide)
      ⟨2, (1,2), by decide, by decide⟩
  have hilt : i < 6 := (List.get?_eq_some.mp hg).1
  interval_cases i <;> simp only [List.get?] at hg <;> injection hg with hh <;> subst hh
  · exact absurd hres (by decide)
  · exact absurd hres (by decide)
  · exact hres.trans (by decide)
  · exact absurd (hfirst 2 (1, 2) (by decide) (by decide) (by decide)) (by decide)
  · exact absurd hi (by decide)
  · exact absurd hi (by decide)

/-- Counterexample for C7: the edge list `[[0,0]]` (a self-loop on the
target's node), weights `[0.5]`, ID map `[10]`, target `10`.  The target is
known and an incident edge exists, so the claim requires "to" to differ from
"from"; the code instead returns the self-referencing edge with nonzero
weight 0.5 (so it is not the sentinel either). -/
theorem top_edge_self_loop_counterexample :
    extract_top_edge [(0,0)] [mkRat 1 2] [10] 10 = .ok ⟨10, 10, mkRat 1 2⟩ ∧
    (mkRat 1 2 : ℚ) ≠ 0 := by
  constructor <;> decide

/-- Claim C7 (amended): when the graph contains no self-loop edges, the ID
mapping has no duplicates, endpoints are valid, and the weight list is
parallel, the returned Contact Edge reports the target as "from" and an
entity distinct from the target as "to", except in the unknown-target /
no-incident-edge cases, where the zero-weight self-loop sentinel is
returned. -/
theorem extract_top_edge_to_distinct (edge_index : List (Int × Int)) (edge_mask : List ℚ)
    (cow_ids : List Int) (target_cow_id : Int)
    (h_len : edge_index.length = edge_mask.length)
    (h_nodup : cow_ids.Nodup)
    (h_noself : ∀ e ∈ edge_index, e.1 ≠ e.2)
    (h_valid : ∀ e ∈ edge_index, 0 ≤ e.1 ∧ e.1 < (cow_ids.length : Int) ∧
      0 ≤ e.2 ∧ e.2 < (cow_ids.length : Int)) :
    ∃ r, extract_top_edge edge_index edge_mask cow_ids target_cow_id = .ok r ∧
      r.«from» = target_cow_id ∧
      (r.«to» = target_cow_id → r.weight = 0 ∧
        (target_cow_id ∉ cow_ids ∨ ∀ e ∈ edge_index,
          ¬(e.1 = target_idx cow_ids target_cow_id ∨
            e.2 = target_idx cow_ids target_cow_id))) := by
  by_cases hmem : target_cow_id ∈ cow_ids
  · cases hmax : pyMaxBySnd (incidentPairs (edge_index.zip edge_mask)
        ((cow_ids.indexOf target_cow_id : Nat) : Int) 0) with
    | none =>
      refine ⟨⟨target_cow_id, target_cow_id, 0⟩, ?_, rfl, ?_⟩
      · simp only [extract_top_edge]
        rw [if_pos hmem, hmax]
      · intro _
        refine ⟨rfl, Or.inr ?_⟩
        intro e he hinc
        obtain ⟨j, hj⟩ := List.get?_of_mem he
        have hjlt : j < edge_index.length := (List.get?_eq_some.mp hj).1
        obtain ⟨m, hm⟩ : ∃ m, edge_mask.get? j = some m :=
          ⟨_, List.get?_eq_get (by omega)⟩
        have hmm : (j, m) ∈ incidentPairs (edge_index.zip edge_mask)
            ((cow_ids.indexOf target_cow_id : Nat) : Int) 0 :=
          incidentPairs_mem.mpr ⟨j, e, (List.get?_zip_eq_some _ _ _ _).mpr ⟨hj, hm⟩,
            by simpa [target_idx] using hinc, by omega⟩
        rw [pyMaxBySnd_none.mp hmax] at hmm
        exact absurd hmm (List.not_mem_nil _)
    | some best =>
      obtain ⟨bi, bm⟩ := best
      have hbmem : (bi, bm) ∈ incidentPairs (edge_index.zip edge_mask)
          ((cow_ids.indexOf target_cow_id : Nat) : Int) 0 := by
        obtain ⟨l₁, l₂, hsplit, _, _⟩ := pyMaxBySnd_spec hmax
        rw [hsplit]
        exact List.mem_append.mpr (Or.inr (List.mem_cons_self _ _))
      obtain ⟨jb, eb, hgetb, hincb, hjb⟩ := incidentPairs_mem.mp hbmem
      have hjb' : jb = bi := by omega
      subst hjb'
      have hb1 : edge_index.get? jb = some eb := ((List.get?_zip_eq_some _ _ _ _).mp hgetb).1
      have hv := h_valid eb (List.get?_mem hb1)
      have hnself := h_noself eb (List.get?_mem hb1)
      have hnbr0 : 0 ≤ (if eb.1 = ((cow_ids.indexOf target_cow_id : Nat) : Int)
          then eb.2 else eb.1) := by
        split_ifs
        · exact hv.2.2.1
        · exact hv.1
      have hnbrlt : (if eb.1 = ((cow_ids.indexOf target_cow_id : Nat) : Int)
          then eb.2 else eb.1) < (cow_ids.length : Int) := by
        split_ifs
        · exact hv.2.2.2
        · exact hv.2.1
      have hlt : (if eb.1 = ((cow_ids.indexOf target_cow_id : Nat) : Int)
          then eb.2 else eb.1).toNat < cow_ids.length := by omega
      have hne : (if eb.1 = ((cow_ids.indexOf target_cow_id : Nat) : Int)
          then eb.2 else eb.1) ≠ ((cow_ids.indexOf target_cow_id : Nat) : Int) := by
        split_ifs with hc
        · intro hh
          exact hnself (hc.trans hh.symm)
        · rcases hincb with hc' | hc'
          · exact absurd hc' hc
          · intro hh
            exact hnself (hh.trans hc'.symm)
      refine ⟨⟨target_cow_id,
        cow_ids.get ⟨(if eb.1 = ((cow_ids.indexOf target_cow_id : Nat) : Int)
          then eb.2 else eb.1).toNat, hlt⟩, round4 bm⟩, ?_, rfl, ?_⟩
      · simp only [extract_top_edge]
        rw [if_pos hmem, hmax]
        have hgetDe : edge_index.getD jb (0, 0) = eb := by
          rw [List.getD_eq_getD_get?, hb1]
          rfl
        dsimp only
        rw [hgetDe, pyListGet_of_nonneg hnbr0, List.get?_eq_get hlt]
      · intro hto
        exfalso
        have hidxlt : cow_ids.indexOf target_cow_id < cow_ids.length :=
          List.indexOf_lt_length.2 hmem
        have hidx : cow_ids.get ⟨cow_ids.indexOf target_cow_id, hidxlt⟩ = target_cow_id :=
          List.indexOf_get _
        have hfin : (⟨(if eb.1 = ((cow_ids.indexOf target_cow_id : Nat) : Int)
            then eb.2 else eb.1).toNat, hlt⟩ : Fin cow_ids.length) =
            ⟨cow_ids.indexOf target_cow_id, hidxlt⟩ :=
          h_nodup.get_inj_iff.mp (hto.trans hidx.symm)
        have : (if eb.1 = ((cow_ids.indexOf target_cow_id : Nat) : Int)
            then eb.2 else eb.1).toNat = cow_ids.indexOf target_cow_id :=
          congrArg Fin.val hfin
        omega
  · refine ⟨⟨target_cow_id, target_cow_id, 0⟩, ?_, rfl, fun _ => ⟨rfl, Or.inl hmem⟩⟩
    unfold extract_top_edge
    rw [if_neg hmem]

/-- Witness for C7 at spec scenario 1 (nodup IDs, no self-loops): the result
reports the target 20 as "from" and the distinct neighbour 30 as "to". -/
theorem extract_top_edge_to_distinct_witness :
    extract_top_edge [(0,1),(1,0),(1,2),(2,1),(2,3),(3,2)]
      [mkRat 3 10, mkRat 3 10, mkRat 9 10, mkRat 9 10, mkRat 5 10, mkRat 5 10]
      [10,20,30,40] 20 = .ok ⟨20, 30, mkRat 9 10⟩ ∧ (30 : Int) ≠ 20 := by
  obtain ⟨r, hr, hfrom, hto⟩ :=
    extract_top_edge_to_distinct [(0,1),(1,0),(1,2),(2,1),(2,3),(3,2)]
      [mkRat 3 10, mkRat 3 10, mkRat 9 10, mkRat 9 10, mkRat 5 10, mkRat 5 10]
      [10,20,30,40] 20 (by decide) (by decide) (by decide) (by decide)
  exact ⟨by decide, by decide⟩

/-- A value that may stand where the contract expects a number: absent, or a
numeric `JVal`. -/
def numOrAbsent : Option JVal → Bool
  | none => true
  | some (.jint _) => true
  | some (.jrat _) => true
  | some _ => false

/-- A value that may stand where the contract expects a string. -/
def strOrAbsent : Option JVal → Bool
  | none => true
  | some (.jstr _) => true
  | some _ => false

/-- The `top_edge` value: absent, or a dict whose `weight` (when present) is
numeric. -/
def edgeOkOrAbsent : Option JVal → Bool
  | none => true
  | some (.jobj te) => numOrAbsent (getV te "weight")
  | some _ => false

/-- The `top_edge` value is a dict carrying `from`, `to` and `weight`. -/
def edgeKeys : Option JVal → Bool
  | some (.jobj te) =>
    (getV te "from").isSome && (getV te "to").isSome && (getV te "weight").isSome
  | _ => false

/-- Values present in the dict have the types the Structured Explanation
contract gives them (risk score, feature delta and edge weight numeric; top
feature a string; top edge a dict); keys may still be absent. -/
def typedPartial (d : List (String × JVal)) : Bool :=
  numOrAbsent (getV d "risk_score") && strOrAbsent (getV d "top_feature") &&
  numOrAbsent (getV d "feature_delta") && edgeOkOrAbsent (getV d "top_edge")

/-- All keys of a Structured Explanation dict are present: `cow_id`,
`risk_score`, `top_feature`, `feature_delta`, and `top_edge` carrying `from`,
`to` and `weight`. -/
def keysAll (d : List (String × JVal)) : Bool :=
  (getV d "cow_id").isSome && (getV d "risk_score").isSome &&
  (getV d "top_feature").isSome && (getV d "feature_delta").isSome &&
  edgeKeys (getV d "top_edge")

/-- A well-formed Structured Explanation dict: all contract keys present with
contract types. -/
def wellFormed (d : List (String × JVal)) : Bool := typedPartial d && keysAll d

theorem getItem_some {d : List (String × JVal)} {k : String} {v : JVal}
    (h : getV d k = some v) : getItem d k = .ok v := by
  unfold getItem
  rw [h]

theorem getItem_none {d : List (String × JVal)} {k : String}
    (h : getV d k = none) : getItem d k = .error (.keyError k) := by
  unfold getItem
  rw [h]

theorem numOrAbsent_shape {v : JVal} (h : numOrAbsent (some v) = true) :
    ∃ q, asNum v = .ok q := by
  cases v with
  | jint i => exact ⟨mkRat i 1, rfl⟩
  | jrat q => exact ⟨q, rfl⟩
  | jstr s => simp [numOrAbsent] at h
  | jobj o => simp [numOrAbsent] at h

theorem wellFormed_shape (d : List (String × JVal)) (h : wellFormed d = true) :
    ∃ cow rv tf dv te ef et ev,
      getV d "cow_id" = some cow ∧
      getV d "risk_score" = some rv ∧ (∃ q, asNum rv = .ok q) ∧
      getV d "top_feature" = some (.jstr tf) ∧
      getV d "feature_delta" = some dv ∧ (∃ q, asNum dv = .ok q) ∧
      getV d "top_edge" = some (.jobj te) ∧
      getV te "from" = some ef ∧ getV te "to" = some et ∧
      getV te "weight" = some ev ∧ (∃ q, asNum ev = .ok q) := by
  unfold wellFormed typedPartial keysAll at h
  simp only [Bool.and_eq_true] at h
  obtain ⟨⟨⟨⟨ht1, ht2⟩, ht3⟩, ht4⟩, ⟨⟨⟨hk1, hk2⟩, hk3⟩, hk4⟩, hk5⟩ := h
  cases hcow : getV d "cow_id" with
  | none => simp [hcow] at hk1
  | some cow =>
  cases hrisk : getV d "risk_score" with
  | none => simp [hrisk] at hk2
  | some rv =>
  cases htf : getV d "top_feature" with
  | none => simp [htf] at hk3
  | some tfv =>
  cases hdv : getV d "feature_delta" with
  | none => simp [hdv] at hk4
  | some dv =>
  cases hte : getV d "top_edge" with
  | none => simp [hte, edgeKeys] at hk5
  | some tev =>
  rw [hte] at hk5 ht4
  cases tev with
  | jint i => simp [edgeKeys] at hk5
  | jrat q => simp [edgeKeys] at hk5
  | jstr s => simp [edgeKeys] at hk5
  | jobj te =>
  simp only [edgeKeys, Bool.and_eq_true] at hk5
  obtain ⟨⟨hf1, hf2⟩, hf3⟩ := hk5
  cases hef : getV te "from" with
  | none => simp [hef] at hf1
  | some ef =>
  cases het : getV te "to" with
  | none => simp [het] at hf2
  | some et =>
  cases hev : getV te "weight" with
  | none => simp [hev] at hf3
  | some ev =>
  cases tfv with
  | jint i => simp [htf, strOrAbsent] at ht2
  | jrat q => simp [htf, strOrAbsent] at ht2
  | jobj o => simp [htf, strOrAbsent] at ht2
  | jstr tf =>
  rw [hrisk] at ht1
  rw [hdv] at ht3
  simp only [edgeOkOrAbsent] at ht4
  rw [hev] at ht4
  exact ⟨cow, rv, tf, dv, te, ef, et, ev, rfl, rfl, numOrAbsent_shape ht1,
    rfl, rfl, numOrAbsent_shape ht3, rfl, hef, het, hev, numOrAbsent_shape ht4⟩

theorem string_eq_of_data (s t : String) (h : s.data = t.data) : s = t := by
  cases s
  cases t
  cases h
  rfl

theorem string_append_assoc (a b c : String) : a ++ b ++ c = a ++ (b ++ c) :=
  string_eq_of_data _ _ (by simp [string_data_append, List.append_assoc])

theorem append_ne_nil_left {s : String} (t : String) (hs : s ≠ "") : s ++ t ≠ "" := by
  intro h
  have hd : s.data ++ t.data = [] := by
    have := congrArg String.data h
    rwa [string_data_append] at this
  have h1 : s.data = [] := (List.append_eq_nil.mp hd).1
  apply hs
  cases s
  cases h1
  rfl

/-- Holds when `pat` occurs as a contiguous substring of `s`. -/
abbrev strContains (s pat : String) : Prop := pat.data <:+: s.data

theorem strContains_appends (a b c : String) : strContains (a ++ b ++ c) b :=
  ⟨a.data, c.data, by simp [string_data_append, List.append_assoc]⟩

theorem humanize_eq_self {tf : String} (h : ∀ c ∈ tf.data, c ≠ '_') :
    humanize tf = tf := by
  unfold humanize
  have hmap : tf.data.map (fun c => if c = '_' then ' ' else c) = tf.data := by
    have h1 : tf.data.map (fun c => if c = '_' then ' ' else c) = tf.data.map id := by
      apply List.map_congr_left
      intro a ha
      simp [h a ha]
    rw [h1, List.map_id]
  apply string_eq_of_data
  exact hmap

theorem wellFormed_fallback (d : List (String × JVal)) (h : wellFormed d = true) :
    ∃ cow tf te contact,
      getV d "cow_id" = some cow ∧
      getV d "top_feature" = some (.jstr tf) ∧
      getV d "top_edge" = some (.jobj te) ∧
      getV te "to" = some contact ∧
      fallback_alert d = .ok ("Check #" ++ pyStr cow ++ ": " ++ humanize tf
        ++ " detected, shared space with #" ++ pyStr contact
        ++ ". Inspect immediately.") := by
  obtain ⟨cow, rv, tf, dv, te, ef, et, ev, hcow, hrisk, _, htf, hdv, _, hte, hef, het,
    hev, _⟩ := wellFormed_shape d h
  refine ⟨cow, tf, te, et, hcow, htf, hte, het, ?_⟩
  simp [fallback_alert, getItem_some hcow, getItem_some htf, getItem_some hte,
    getItem_some het, asStr, asObj]

theorem wellFormed_prompt (d : List (String × JVal)) (h : wellFormed d = true) :
    ∃ p, build_user_prompt d = .ok p := by
  obtain ⟨cow, rv, tf, dv, te, ef, et, ev, hcow, hrisk, ⟨rq, hrq⟩, htf, hdv, ⟨dq, hdq⟩,
    hte, hef, het, hev, ⟨wq, hwq⟩⟩ := wellFormed_shape d h
  have hbp : build_user_prompt d = .ok ("Cow ID: #" ++ pyStr cow ++ "\n"
      ++ "Risk score: " ++ formatPct rq ++ "\n"
      ++ "Top risk factor: " ++ humanize tf
      ++ " (change from baseline: "
      ++ (if jvalNeZero dv then formatSignedPct dq else "baseline") ++ ")\n"
      ++ "Highest-risk contact: #" ++ pyStr ef
      ++ " shared space with #" ++ pyStr et
      ++ " (connection strength: " ++ formatPct wq ++ ")\n"
      ++ "Generate a one-sentence farmer alert.") := by
    cases hb : jvalNeZero dv <;>
      simp [build_user_prompt, getItem_some hcow, getItem_some hrisk, getItem_some htf,
        getItem_some hdv, getItem_some hte, getItem_some hef, getItem_some het,
        getItem_some hev, asStr, asObj, hb, hdq, hrq, hwq, Except.map]
  exact ⟨_, hbp⟩

/-- Counterexample for C3: `demo_xai` is a well-formed Structured Explanation
dict, yet when the backend call succeeds with a whitespace-only generation,
`generate_alert` returns the empty string — the success path returns
`result["response"].strip()` unchecked, so "returns a non-empty string
regardless of whether the backend call succeeds" fails. -/
theorem generate_alert_empty_success_counterexample :
    wellFormed demo_xai = true ∧
    generate_alert demo_xai (.success " ") = .ok "" := by
  constructor <;> decide

/-- Claim C3 (amended): for every well-formed Structured Explanation dict,
`generate_alert` never raises: it returns the trimmed backend text on
success, and the deterministic non-empty template fallback on every failure
class (timeout, connection failure, malformed response, any other
exception).  The returned string can be empty only when the backend call
succeeds with text that trims to the empty string. -/
theorem generate_alert_total (d : List (String × JVal)) (h : wellFormed d = true)
    (b : BackendOutcome) :
    ∃ s, generate_alert d b = .ok s ∧
      (∀ t, b = .success t → s = pyStrip t) ∧
      (b.isFailure = true → fallback_alert d = .ok s ∧ s ≠ "") := by
  obtain ⟨p, hp⟩ := wellFormed_prompt d h
  obtain ⟨cow, tf, te, contact, hcow, htf, hte, het, hfb⟩ := wellFormed_fallback d h
  have hne : ("Check #" ++ pyStr cow ++ ": " ++ humanize tf
      ++ " detected, shared space with #" ++ pyStr contact
      ++ ". Inspect immediately.") ≠ "" := by
    apply append_ne_nil_left
    apply append_ne_nil_left
    apply append_ne_nil_left
    apply append_ne_nil_left
    apply append_ne_nil_left
    apply append_ne_nil_left
    decide
  have hgen : ∀ bb : BackendOutcome, bb.isFailure = true →
      generate_alert d bb = fallback_alert d := by
    intro bb hbb
    cases bb
    case success t => simp [BackendOutcome.isFailure] at hbb
    all_goals
      unfold generate_alert
      rw [hp]
  cases b
  case success t =>
    refine ⟨pyStrip t, ?_, ?_, ?_⟩
    · unfold generate_alert
      rw [hp]
    · intro t' ht'
      cases ht'
      rfl
    · intro hf
      simp [BackendOutcome.isFailure] at hf
  all_goals
    refine ⟨_, (hgen _ (by rfl)).trans hfb, ?_, fun _ => ⟨hfb, hne⟩⟩
    intro t' ht'
    exact absurd ht' (by simp)

/-- Witness for C3 (amended) at `demo_xai` with an unreachable backend: the
deterministic fallback sentence is returned, and it is non-empty. -/
theorem generate_alert_total_witness :
    generate_alert demo_xai .connectError =
      .ok "Check #47: milk yield drop detected, shared space with #31. Inspect immediately." ∧
    ("Check #47: milk yield drop detected, shared space with #31. Inspect immediately." : String)
      ≠ "" := by
  obtain ⟨s, h1, _, h3⟩ := generate_alert_total demo_xai (by decide) .connectError
  obtain ⟨h4, h5⟩ := h3 rfl
  have h6 : fallback_alert demo_xai =
      .ok "Check #47: milk yield drop detected, shared space with #31. Inspect immediately." := by
    decide
  have hs : s = "Check #47: milk yield drop detected, shared space with #31. Inspect immediately." :=
    Except.ok.inj (h4.symm.trans h6)
  exact ⟨hs ▸ h1, hs ▸ h5⟩

/-- Claim C8: when the backend call fails (any failure class), the sentence
returned by `generate_alert` is the template fallback, which contains the
entity ID (as `#<id>`), the top feature name (rendered with the generator's
separator humanisation, i.e. underscores replaced by spaces, and verbatim
when it contains no underscore), the neighbour entity ID (the top edge's
"to" field, as `#<id>`), and the static directive "Inspect immediately.",
and the call completes without raising. -/
theorem fallback_alert_contains_key_facts (d : List (String × JVal))
    (h : wellFormed d = true) (b : BackendOutcome) (hb : b.isFailure = true) :
    ∃ s cow tf te contact,
      getV d "cow_id" = some cow ∧
      getV d "top_feature" = some (.jstr tf) ∧
      getV d "top_edge" = some (.jobj te) ∧
      getV te "to" = some contact ∧
      generate_alert d b = .ok s ∧
      strContains s ("#" ++ pyStr cow) ∧
      strContains s (humanize tf) ∧
      strContains s ("#" ++ pyStr contact) ∧
      strContains s "Inspect immediately." ∧
      ((∀ c ∈ tf.data, c ≠ '_') → strContains s tf) := by
  obtain ⟨p, hp⟩ := wellFormed_prompt d h
  obtain ⟨cow, tf, te, contact, hcow, htf, hte, het, hfb⟩ := wellFormed_fallback d h
  have hgen : generate_alert d b = fallback_alert d := by
    cases b
    case success t => simp [BackendOutcome.isFailure] at hb
    all_goals
      unfold generate_alert
      rw [hp]
  have hs1 : ("Check #" : String).data
      = ("Check " : String).data ++ ("#" : String).data := by decide
  have hs2 : (" detected, shared space with #" : String).data
      = (" detected, shared space with " : String).data ++ ("#" : String).data := by decide
  have hs3 : (". Inspect immediately." : String).data
      = (". " : String).data ++ ("Inspect immediately." : String).data := by decide
  have hc1 : strContains ("Check #" ++ pyStr cow ++ ": " ++ humanize tf
      ++ " detected, shared space with #" ++ pyStr contact
      ++ ". Inspect immediately.") ("#" ++ pyStr cow) :=
    ⟨("Check " : String).data,
     ((": " ++ humanize tf ++ " detected, shared space with #" ++ pyStr contact
       ++ ". Inspect immediately.") : String).data,
     by simp [string_data_append, hs1, hs2, hs3, List.append_assoc]⟩
  have hc2 : strContains ("Check #" ++ pyStr cow ++ ": " ++ humanize tf
      ++ " detected, shared space with #" ++ pyStr contact
      ++ ". Inspect immediately.") (humanize tf) :=
    ⟨(("Check #" ++ pyStr cow ++ ": ") : String).data,
     ((" detected, shared space with #" ++ pyStr contact
       ++ ". Inspect immediately.") : String).data,
     by simp [string_data_append, List.append_assoc]⟩
  have hc3 : strContains ("Check #" ++ pyStr cow ++ ": " ++ humanize tf
      ++ " detected, shared space with #" ++ pyStr contact
      ++ ". Inspect immediately.") ("#" ++ pyStr contact) :=
    ⟨(("Check #" ++ pyStr cow ++ ": " ++ humanize tf
       ++ " detected, shared space with ") : String).data,
     ((". Inspect immediately.") : String).data,
     by simp [string_data_append, hs2, List.append_assoc]⟩
  have hc4 : strContains ("Check #" ++ pyStr cow ++ ": " ++ humanize tf
      ++ " detected, shared space with #" ++ pyStr contact
      ++ ". Inspect immediately.") "Inspect immediately." :=
    ⟨(("Check #" ++ pyStr cow ++ ": " ++ humanize tf
       ++ " detected, shared space with #" ++ pyStr contact ++ ". ") : String).data,
     ([] : List Char),
     by simp [string_data_append, hs3, List.append_assoc]⟩
  refine ⟨_, cow, tf, te, contact, hcow, htf, hte, het, hgen.trans hfb,
    hc1, hc2, hc3, hc4, ?_⟩
  intro hund
  have hdl : (humanize tf).data = tf.data :=
    congrArg String.data (humanize_eq_self hund)
  show tf.data <:+: _
  rw [← hdl]
  exact hc2

/-- Witness for C8 at `demo_xai` with an unreachable backend. -/
theorem fallback_alert_contains_key_facts_witness :
    strContains "Check #47: milk yield drop detected, shared space with #31. Inspect immediately."
      "Inspect immediately." ∧
    strContains "Check #47: milk yield drop detected, shared space with #31. Inspect immediately."
      "#47" := by
  obtain ⟨s, cow, tf, te, contact, hcow, htf, hte, het, hgen2, hk1, hk2, hk3, hk4, hk5⟩ :=
    fallback_alert_contains_key_facts demo_xai (by decide) .connectError (by decide)
  have h6 : generate_alert demo_xai .connectError =
      .ok "Check #47: milk yield drop detected, shared space with #31. Inspect immediately." := by
    decide
  have hs : s = "Check #47: milk yield drop detected, shared space with #31. Inspect immediately." :=
    Except.ok.inj (hgen2.symm.trans h6)
  have hcow47 : cow = .jint 47 := by
    have h7 : getV demo_xai "cow_id" = some (.jint 47) := rfl
    exact Option.some.inj (hcow.symm.trans h7)
  have h8 : ("#" ++ pyStr cow : String) = "#47" := by
    rw [hcow47]
    decide
  exact ⟨hs ▸ hk4, hs ▸ h8 ▸ hk1⟩

/-- Claim C10: for every dict (with correctly typed present values) missing
any of the keys `cow_id`, `risk_score`, `top_feature`, `feature_delta`, or
`top_edge` (or whose `top_edge` lacks `from`, `to`, or `weight`),
`generate_alert` raises a `KeyError` before any backend call is attempted:
the error is produced by the user-prompt construction, which sits outside
the `try` block, and the result is the same `KeyError` for every backend
outcome.  The never-raises guarantee therefore holds only for dicts
carrying all of those keys. -/
theorem generate_alert_missing_key_raises (d : List (String × JVal)) (b : BackendOutcome)
    (ht : typedPartial d = true) (hm : keysAll d = false) :
    ∃ k, build_user_prompt d = .error (.keyError k) ∧
      generate_alert d b = .error (.keyError k) := by
  suffices hs : ∃ k, build_user_prompt d = .error (.keyError k) by
    obtain ⟨k, hk⟩ := hs
    refine ⟨k, hk, ?_⟩
    unfold generate_alert
    rw [hk]
  unfold typedPartial at ht
  simp only [Bool.and_eq_true] at ht
  obtain ⟨⟨⟨ht1, ht2⟩, ht3⟩, ht4⟩ := ht
  cases hcow : getV d "cow_id" with
  | none => exact ⟨"cow_id", by simp [build_user_prompt, getItem_none hcow]⟩
  | some cow =>
  cases hrisk : getV d "risk_score" with
  | none =>
    exact ⟨"risk_score",
      by simp [build_user_prompt, getItem_some hcow, getItem_none hrisk]⟩
  | some rv =>
  cases htf : getV d "top_feature" with
  | none =>
    exact ⟨"top_feature",
      by simp [build_user_prompt, getItem_some hcow, getItem_some hrisk,
        getItem_none htf]⟩
  | some tfv =>
  rw [htf] at ht2
  cases tfv with
  | jint i => simp [strOrAbsent] at ht2
  | jrat q => simp [strOrAbsent] at ht2
  | jobj o => simp [strOrAbsent] at ht2
  | jstr tf =>
  cases hdv : getV d "feature_delta" with
  | none =>
    exact ⟨"feature_delta",
      by simp [build_user_prompt, getItem_some hcow, getItem_some hrisk,
        getItem_some htf, asStr, getItem_none hdv]⟩
  | some dv =>
  cases hte : getV d "top_edge" with
  | none =>
    exact ⟨"top_edge",
      by simp [build_user_prompt, getItem_some hcow, getItem_some hrisk,
        getItem_some htf, asStr, getItem_some hdv, getItem_none hte]⟩
  | some tev =>
  rw [hte] at ht4
  cases tev with
  | jint i => simp [edgeOkOrAbsent] at ht4
  | jrat q => simp [edgeOkOrAbsent] at ht4
  | jstr s => simp [edgeOkOrAbsent] at ht4
  | jobj te =>
  cases hef : getV te "from" with
  | none =>
    exact ⟨"from",
      by simp [build_user_prompt, getItem_some hcow, getItem_some hrisk,
        getItem_some htf, asStr, getItem_some hdv, getItem_some hte, asObj,
        getItem_none hef]⟩
  | some ef =>
  cases het : getV te "to" with
  | none =>
    exact ⟨"to",
      by simp [build_user_prompt, getItem_some hcow, getItem_some hrisk,
        getItem_some htf, asStr, getItem_some hdv, getItem_some hte, asObj,
        getItem_some hef, getItem_none het]⟩
  | some et =>
  cases hev : getV te "weight" with
  | none =>
    exact ⟨"weight",
      by simp [build_user_prompt, getItem_some hcow, getItem_some hrisk,
        getItem_some htf, asStr, getItem_some hdv, getItem_some hte, asObj,
        getItem_some hef, getItem_some het, getItem_none hev]⟩
  | some ev =>
  exfalso
  unfold keysAll at hm
  rw [hcow, hrisk, htf, hdv, hte] at hm
  simp [edgeKeys, hef, het, hev] at hm

/-- Witness for C10: a dict carrying only `cow_id`; the prompt construction
raises `KeyError("risk_score")` and `generate_alert` propagates it even
though the backend outcome is a success. -/
theorem generate_alert_missing_key_raises_witness :
    build_user_prompt [("cow_id", JVal.jint 47)] = .error (.keyError "risk_score") ∧
    generate_alert [("cow_id", JVal.jint 47)] (.success "ok")
      = .error (.keyError "risk_score") := by
  obtain ⟨k, h1, h2⟩ := generate_alert_missing_key_raises [("cow_id", JVal.jint 47)]
    (.success "ok") (by decide) (by decide)
  have h3 : build_user_prompt [("cow_id", JVal.jint 47)]
      = .error (.keyError "risk_score") := by decide
  have hk : k = "risk_score" :=
    PyError.keyError.inj (Except.error.inj (h1.symm.trans h3))
  exact ⟨hk ▸ h1, hk ▸ h2⟩

/-- Explainer output of spec scenario 1, shaped per the
`get_gnn_explainer_output` contract. -/
def demo_eo : ExplainerOutput :=
  ⟨20,
   [mkRat 3 10, mkRat 3 10, mkRat 9 10, mkRat 9 10, mkRat 5 10, mkRat 5 10],
   [(0,1),(1,0),(1,2),(2,1),(2,3),(3,2)],
   [mkRat 1 10, mkRat 8 10, mkRat 5 100, 0, 0, 0, 0, 0, 0, 0],
   FEATURE_NAMES, none⟩

/-- A four-cow inference result shaped per the `run_inference` contract. -/
def demo_ir : InferenceResult :=
  ⟨[⟨10, mkRat 2 10, "ok", none⟩,
    ⟨20, mkRat 85 100, "alert", some "milk_yield_drop"⟩,
    ⟨30, mkRat 5 10, "watch", none⟩,
    ⟨40, mkRat 1 10, "ok", none⟩],
   [[0,1,0,0],[1,0,1,0],[0,1,0,1],[0,0,1,0]]⟩

/-- The structured dict `build_xai_json` produces for scenario 1. -/
def demo_xj : List (String × JVal) :=
  [("cow_id", .jint 20),
   ("risk_score", .jrat (mkRat 85 100)),
   ("top_edge", .jobj [("from", .jint 20), ("to", .jint 30),
     ("weight", .jrat (mkRat 9 10))]),
   ("top_feature", .jstr "milk_yield_drop"),
   ("feature_delta", .jrat 0)]

/-- The final `/explain` body for scenario 1 under an unreachable backend. -/
def demo_body : List (String × JVal) :=
  demo_xj ++ [("alert_text", .jstr
    "Check #20: milk yield drop detected, shared space with #30. Inspect immediately.")]

/-- Claim C6: the Structured Explanation built by `build_xai_json` carries
exactly the fields `cow_id`, `risk_score`, `top_edge`, `top_feature` and
`feature_delta` — the real assembler never adds dominant-cause or breakdown
fields, so the "when available upstream" proviso is vacuous on this path —
and never an `alert_text` field; the final Alert returned by `explain_cow`
carries exactly those fields plus a single `alert_text` field. -/
theorem xai_fields_exact :
    (∀ (cow_id : Int) (risk_score : ℚ) (eo : ExplainerOutput) (cow_ids : List Int)
      (xj : List (String × JVal)),
      build_xai_json cow_id risk_score eo cow_ids = .ok xj →
      xj.map Prod.fst = ["cow_id", "risk_score", "top_edge", "top_feature",
        "feature_delta"] ∧
      "alert_text" ∉ xj.map Prod.fst) ∧
    (∀ (ir : InferenceResult) (eo : ExplainerOutput) (b : BackendOutcome) (cow_id : Int)
      (body : List (String × JVal)),
      explain_cow ir eo b cow_id = .ok body →
      body.map Prod.fst = ["cow_id", "risk_score", "top_edge", "top_feature",
        "feature_delta", "alert_text"] ∧
      (body.map Prod.fst).count "alert_text" = 1) := by
  have part1 : ∀ (cow_id : Int) (risk_score : ℚ) (eo : ExplainerOutput)
      (cow_ids : List Int) (xj : List (String × JVal)),
      build_xai_json cow_id risk_score eo cow_ids = .ok xj →
      xj.map Prod.fst = ["cow_id", "risk_score", "top_edge", "top_feature",
        "feature_delta"] ∧
      "alert_text" ∉ xj.map Prod.fst := by
    intro cow_id risk_score eo cow_ids xj hb
    unfold build_xai_json at hb
    cases hex : extract_top_edge eo.edge_index eo.edge_mask cow_ids cow_id with
    | error e => rw [hex] at hb; simp at hb
    | ok te =>
      rw [hex] at hb
      simp only [Except.ok.injEq] at hb
      subst hb
      refine ⟨rfl, ?_⟩
      show "alert_text" ∉ (["cow_id", "risk_score", "top_edge", "top_feature",
        "feature_delta"] : List String)
      decide
  refine ⟨part1, ?_⟩
  intro ir eo b cow_id body h
  unfold explain_cow at h
  cases hf : ir.cows.find? (fun c => c.id == cow_id) with
  | none => rw [hf] at h; simp at h
  | some cowd =>
  rw [hf] at h
  dsimp only at h
  cases hbx : build_xai_json cow_id cowd.risk_score eo (ir.cows.map (fun c => c.id)) with
  | error e => rw [hbx] at h; simp at h
  | ok xj =>
  rw [hbx] at h
  dsimp only at h
  cases hga : generate_alert xj b with
  | error e => rw [hga] at h; simp at h
  | ok alert =>
  rw [hga] at h
  dsimp only at h
  simp only [Except.ok.injEq] at h
  obtain ⟨hkeys, hnot⟩ := part1 cow_id cowd.risk_score eo (ir.cows.map (fun c => c.id)) xj hbx
  have hfind : xj.find? (fun p => p.1 == "alert_text") = none := by
    apply List.find?_eq_none.mpr
    intro p hp hbeq
    have hmem : p.1 ∈ xj.map Prod.fst := List.mem_map_of_mem _ hp
    rw [hkeys] at hmem
    have : p.1 = "alert_text" := by simpa using hbeq
    rw [this] at hmem
    exact absurd hmem (by decide)
  have hget : getV xj "alert_text" = none := by
    unfold getV
    rw [hfind]
  have hset : pyDictSet xj "alert_text" (.jstr alert) = xj ++ [("alert_text", .jstr alert)] := by
    unfold pyDictSet
    rw [hget]
    rfl
  rw [hset] at h
  subst h
  constructor
  · rw [List.map_append, hkeys]
    rfl
  · rw [List.map_append, List.count_append, hkeys]
    rfl

/-- Witness for C6 at spec scenario 1 (20 is an alert cow of `demo_ir`,
backend unreachable): the assembled dict and final body have exactly the
contract fields. -/
theorem xai_fields_exact_witness :
    demo_xj.map Prod.fst = ["cow_id", "risk_score", "top_edge", "top_feature",
      "feature_delta"] ∧
    "alert_text" ∉ demo_xj.map Prod.fst ∧
    demo_body.map Prod.fst = ["cow_id", "risk_score", "top_edge", "top_feature",
      "feature_delta", "alert_text"] ∧
    (demo_body.map Prod.fst).count "alert_text" = 1 := by
  obtain ⟨h1, h2⟩ := xai_fields_exact.1 20 (mkRat 85 100) demo_eo [10,20,30,40]
    demo_xj rfl
  obtain ⟨h3, h4⟩ := xai_fields_exact.2 demo_ir demo_eo .connectError 20 demo_body rfl
  exact ⟨h1, h2, h3, h4⟩

theorem extract_top_edge_isOk (edge_index : List (Int × Int)) (edge_mask : List ℚ)
    (cow_ids : List Int) (target_cow_id : Int)
    (h_valid : ∀ e ∈ edge_index, 0 ≤ e.1 ∧ e.1 < (cow_ids.length : Int) ∧
      0 ≤ e.2 ∧ e.2 < (cow_ids.length : Int)) :
    ∃ r, extract_top_edge edge_index edge_mask cow_ids target_cow_id = .ok r := by
  by_cases hmem : target_cow_id ∈ cow_ids
  · cases hmax : pyMaxBySnd (incidentPairs (edge_index.zip edge_mask)
        ((cow_ids.indexOf target_cow_id : Nat) : Int) 0) with
    | none =>
      refine ⟨⟨target_cow_id, target_cow_id, 0⟩, ?_⟩
      simp only [extract_top_edge]
      rw [if_pos hmem, hmax]
    | some best =>
      obtain ⟨bi, bm⟩ := best
      have hbmem : (bi, bm) ∈ incidentPairs (edge_index.zip edge_mask)
          ((cow_ids.indexOf target_cow_id : Nat) : Int) 0 := by
        obtain ⟨l₁, l₂, hsplit, _, _⟩ := pyMaxBySnd_spec hmax
        rw [hsplit]
        exact List.mem_append.mpr (Or.inr (List.mem_cons_self _ _))
      obtain ⟨jb, eb, hgetb, hincb, hjb⟩ := incidentPairs_mem.mp hbmem
      have hjb' : jb = bi := by omega
      subst hjb'
      have hb1 : edge_index.get? jb = some eb := ((List.get?_zip_eq_some _ _ _ _).mp hgetb).1
      have hv := h_valid eb (List.get?_mem hb1)
      have hnbr0 : 0 ≤ (if eb.1 = ((cow_ids.indexOf target_cow_id : Nat) : Int)
          then eb.2 else eb.1) := by
        split_ifs
        · exact hv.2.2.1
        · exact hv.1
      have hnbrlt : (if eb.1 = ((cow_ids.indexOf target_cow_id : Nat) : Int)
          then eb.2 else eb.1) < (cow_ids.length : Int) := by
        split_ifs
        · exact hv.2.2.2
        · exact hv.2.1
      have hlt : (if eb.1 = ((cow_ids.indexOf target_cow_id : Nat) : Int)
          then eb.2 else eb.1).toNat < cow_ids.length := by omega
      refine ⟨⟨target_cow_id,
        cow_ids.get ⟨(if eb.1 = ((cow_ids.indexOf target_cow_id : Nat) : Int)
          then eb.2 else eb.1).toNat, hlt⟩, round4 bm⟩, ?_⟩
      simp only [extract_top_edge]
      rw [if_pos hmem, hmax]
      have hgetDe : edge_index.getD jb (0, 0) = eb := by
        rw [List.getD_eq_getD_get?, hb1]
        rfl
      dsimp only
      rw [hgetDe, pyListGet_of_nonneg hnbr0, List.get?_eq_get hlt]
  · refine ⟨⟨target_cow_id, target_cow_id, 0⟩, ?_⟩
    unfold extract_top_edge
    rw [if_neg hmem]

theorem build_xai_json_ok (cow_id : Int) (risk_score : ℚ) (eo : ExplainerOutput)
    (cow_ids : List Int)
    (h_valid : ∀ e ∈ eo.edge_index, 0 ≤ e.1 ∧ e.1 < (cow_ids.length : Int) ∧
      0 ≤ e.2 ∧ e.2 < (cow_ids.length : Int)) :
    ∃ xj, build_xai_json cow_id risk_score eo cow_ids = .ok xj ∧
      wellFormed xj = true := by
  obtain ⟨r, hr⟩ := extract_top_edge_isOk eo.edge_index eo.edge_mask cow_ids cow_id h_valid
  refine ⟨[("cow_id", .jint cow_id),
    ("risk_score", .jrat (round4 risk_score)),
    ("top_edge", topEdgeJ r),
    ("top_feature", .jstr (extract_top_feature eo.feature_mask eo.feature_delta).1),
    ("feature_delta", .jrat (extract_top_feature eo.feature_mask eo.feature_delta).2)],
    ?_, ?_⟩
  · unfold build_xai_json
    rw [hr]
  · rfl

theorem generate_alert_isOk (xj : List (String × JVal)) (h : wellFormed xj = true)
    (b : BackendOutcome) : ∃ s, generate_alert xj b = .ok s := by
  obtain ⟨p, hp⟩ := wellFormed_prompt xj h
  obtain ⟨cow, tf, te, contact, _, _, _, _, hfb⟩ := wellFormed_fallback xj h
  cases b
  case success t =>
    refine ⟨pyStrip t, ?_⟩
    unfold generate_alert
    rw [hp]
  all_goals
    refine ⟨"Check #" ++ pyStr cow ++ ": " ++ humanize tf
      ++ " detected, shared space with #" ++ pyStr contact
      ++ ". Inspect immediately.", ?_⟩
    unfold generate_alert
    rw [hp]
    exact hfb

/-- A one-cow inference result used to exercise the explanation path with a
malformed explainer output. -/
def tiny_ir : InferenceResult := ⟨[⟨10, mkRat 8 10, "alert", none⟩], [[0]]⟩

/-- An explainer output violating the node-index contract: the edge `(0, 5)`
names node 5, outside the one-cow herd. -/
def bad_eo : ExplainerOutput :=
  ⟨10, [mkRat 9 10], [(0, 5)], [mkRat 1 2], FEATURE_NAMES, none⟩

/-- Counterexample for C9: cow 10 is present in the inference result, yet the
explanation path surfaces a failure — `extract_top_edge` hits the Python
`IndexError` on `cow_ids[5]`, `explain_cow` propagates it, and
`get_explain`, which converts only `ValueError` to a 404, leaves it
uncaught (a 500).  Hence a missing entity ID is not the only condition
under which the explanation path surfaces an explicit failure. -/
theorem explain_cow_index_error_counterexample :
    (10 : Int) ∈ tiny_ir.cows.map (fun c => c.id) ∧
    explain_cow tiny_ir bad_eo .connectError 10 = .error .indexError ∧
    get_explain tiny_ir bad_eo .connectError 10 = .uncaught .indexError := by
  refine ⟨by decide, rfl, rfl⟩

/-- Claim C9 (amended): when the explainer output satisfies its node-index
contract (all edge endpoints are valid indices into the herd), an entity ID
absent from the inference result makes `explain_cow` raise `ValueError` and
the endpoint convert it to a 404, while a present entity ID always yields a
successful response — so the not-found condition is then the only failure
surfaced by the explanation path. -/
theorem explain_cow_not_found_404 (ir : InferenceResult) (eo : ExplainerOutput)
    (b : BackendOutcome) (cow_id : Int)
    (h_valid : ∀ e ∈ eo.edge_index, 0 ≤ e.1 ∧ e.1 < (ir.cows.length : Int) ∧
      0 ≤ e.2 ∧ e.2 < (ir.cows.length : Int)) :
    (cow_id ∉ ir.cows.map (fun c => c.id) →
      ∃ msg, explain_cow ir eo b cow_id = .error (.valueError msg) ∧
        get_explain ir eo b cow_id = .notFound msg) ∧
    (cow_id ∈ ir.cows.map (fun c => c.id) →
      ∃ body, explain_cow ir eo b cow_id = .ok body ∧
        get_explain ir eo b cow_id = .ok body) := by
  constructor
  · intro habs
    have hfind : ir.cows.find? (fun c => c.id == cow_id) = none := by
      apply List.find?_eq_none.mpr
      intro c hc hbeq
      have hcid : c.id = cow_id := by simpa using hbeq
      exact habs (hcid ▸ List.mem_map_of_mem (fun c => c.id) hc)
    have h1 : explain_cow ir eo b cow_id =
        .error (.valueError ("Cow " ++ toString cow_id
          ++ " not found in inference result")) := by
      unfold explain_cow
      rw [hfind]
    exact ⟨_, h1, by unfold get_explain; rw [h1]⟩
  · intro hmem
    obtain ⟨cowd, hf⟩ : ∃ c, ir.cows.find? (fun c => c.id == cow_id) = some c := by
      cases hfq : ir.cows.find? (fun c => c.id == cow_id) with
      | some c => exact ⟨c, rfl⟩
      | none =>
        obtain ⟨c, hc, hcid⟩ := List.mem_map.mp hmem
        have := List.find?_eq_none.mp hfq c hc
        exact absurd (by simpa using hcid) this
    obtain ⟨xj, hbx, hwf⟩ := build_xai_json_ok cow_id cowd.risk_score eo
      (ir.cows.map (fun c => c.id))
      (by
        intro e he
        rw [List.length_map]
        exact h_valid e he)
    obtain ⟨s, hga⟩ := generate_alert_isOk xj hwf b
    have h1 : explain_cow ir eo b cow_id =
        .ok (pyDictSet xj "alert_text" (.jstr s)) := by
      unfold explain_cow
      rw [hf]
      dsimp only
      rw [hbx]
      dsimp only
      rw [hga]
    exact ⟨_, h1, by unfold get_explain; rw [h1]⟩

/-- Witness for C9 at `demo_ir`/`demo_eo`: cow 999 is absent, `explain_cow`
raises `ValueError` and the endpoint answers 404. -/
theorem explain_cow_not_found_404_witness :
    explain_cow demo_ir demo_eo .connectError 999
      = .error (.valueError "Cow 999 not found in inference result") ∧
    get_explain demo_ir demo_eo .connectError 999
      = .notFound "Cow 999 not found in inference result" := by
  obtain ⟨msg, h1, h2⟩ := (explain_cow_not_found_404 demo_ir demo_eo .connectError 999
    (by decide)).1 (by decide)
  have h3 : explain_cow demo_ir demo_eo .connectError 999
      = .error (.valueError "Cow 999 not found in inference result") := rfl
  have hmsg : msg = "Cow 999 not found in inference result" :=
    PyError.valueError.inj (Except.error.inj (h1.symm.trans h3))
  exact ⟨hmsg ▸ h1, hmsg ▸ h2⟩
